import Mathlib

/-!
Verification development for the `gtsteffaniak/go-logger` repository.

The Go sources (package `logger`) are shallowly embedded below:
pure functions become Lean functions, the stateful dispatch pipeline
(`Log`, `(*modernLogger).logWithLevel`, the legacy global free functions,
`SetupLogger`) becomes functions from explicit state to a trace of observable
actions (writes, slog routing, `os.Exit`).  Time (`time.Now()` formatted) is
passed in as the two strings `nowUtc`/`nowLocal`; fallible file opening is an
oracle `openOk : String → Bool`; Go's `fmt` rendering of variadic arguments
is out of scope (messages arrive pre-rendered, structured args as `List
String`), matching the spec's scoping of platform text-formatting primitives.
-/

set_option autoImplicit false

namespace GoLogger

/-- Severities exactly as declared in `write.go` (`type LogLevel int`). -/
inductive LogLevel where
  | DISABLED
  | ERROR
  | FATAL
  | WARNING
  | INFO
  | DEBUG
  | API
  deriving DecidableEq, Repr

open LogLevel

/-- The numeric values the Go constants carry (`DISABLED LogLevel = 0`, ...,
`DEBUG LogLevel = 5`, `API LogLevel = 10`); the legacy numeric order only. -/
def LogLevel.goValue : LogLevel → Nat
  | DISABLED => 0
  | ERROR => 1
  | FATAL => 2
  | WARNING => 3
  | INFO => 4
  | DEBUG => 5
  | API => 10

/-- ANSI color constant `RED` from `write.go`. -/
def RED : String := "\x1b[31m"

/-- ANSI color constant `GREEN` from `write.go`. -/
def GREEN : String := "\x1b[32m"

/-- ANSI color constant `YELLOW` from `write.go`. -/
def YELLOW : String := "\x1b[33m"

/-- ANSI color constant `GRAY` from `write.go`. -/
def GRAY : String := "\x1b[2;37m"

/-- The reset escape appended to colored message bodies. -/
def colorReset : String := "\x1b[0m"

/-- The `stringToLevel` map of `write.go` (map lookup as `Option`). -/
def stringToLevel (s : String) : Option LogLevel :=
  if s = "DEBUG" then some DEBUG
  else if s = "INFO " then some INFO
  else if s = "ERROR" then some ERROR
  else if s = "DISABLED" then some DISABLED
  else if s = "WARN " then some WARNING
  else if s = "FATAL" then some FATAL
  else if s = "API" then some API
  else none

/-- `levelToString` from `modern.go`. -/
def levelToString : LogLevel → String
  | DEBUG => "DEBUG"
  | INFO => "INFO "
  | WARNING => "WARN "
  | ERROR => "ERROR"
  | FATAL => "FATAL"
  | API => "API"
  | _ => "UNKNOWN"

/-- `getColorForLevel` from `modern.go`. -/
def getColorForLevel : LogLevel → String
  | DEBUG => GRAY
  | WARNING => YELLOW
  | ERROR => RED
  | FATAL => RED
  | _ => ""

/-- `getAPILevelAndColor` from `modern.go`: HTTP-status classification. -/
def getAPILevelAndColor (statusCode : Int) : LogLevel × String :=
  if statusCode > 304 ∧ statusCode < 500 then (WARNING, YELLOW)
  else if statusCode ≥ 500 then (ERROR, RED)
  else (INFO, GREEN)

/-- The inline status classification duplicated in `Api`/`Apif` of `write.go`
(same boundaries, producing the padded level string and the color). -/
def apiStatusStrings (statusCode : Int) : String × String :=
  if statusCode > 304 ∧ statusCode < 500 then ("WARN ", YELLOW)
  else if statusCode ≥ 500 then ("ERROR", RED)
  else ("INFO ", GREEN)

/-- C3: for every integer status code `c`, the API classification is WARNING
exactly when `304 < c < 500`, ERROR exactly when `c ≥ 500`, and INFO otherwise
(every `c ≤ 304`, including 304 itself, is INFO); `write.go`'s inline copy in
`Api`/`Apif` agrees with `getAPILevelAndColor` everywhere. -/
theorem apiStatusClassification (c : Int) :
    ((getAPILevelAndColor c).1 = WARNING ↔ 304 < c ∧ c < 500) ∧
    ((getAPILevelAndColor c).1 = ERROR ↔ 500 ≤ c) ∧
    ((getAPILevelAndColor c).1 = INFO ↔ c ≤ 304) ∧
    (apiStatusStrings c).1 = levelToString (getAPILevelAndColor c).1 ∧
    (apiStatusStrings c).2 = (getAPILevelAndColor c).2 := by
  unfold getAPILevelAndColor apiStatusStrings
  split_ifs with h1 h2 <;> refine ⟨?_, ?_, ?_, rfl, rfl⟩ <;> simp <;> omega

/-- The delimiter predicate of `SplitByMultiple` in `setup.go`
(delimiters `'|'`, `','`, `' '`). -/
def isDelim (c : Char) : Bool := c = '|' || c = ',' || c = ' '

/-- Model of Go `strings.FieldsFunc`: split at runs of delimiter characters,
returning only the non-empty fields (accumulator holds the current field,
reversed). -/
def fieldsAux (cs : List Char) (acc : List Char) : List (List Char) :=
  match cs with
  | [] => if acc.isEmpty then [] else [acc.reverse]
  | c :: rest =>
    if isDelim c then
      if acc.isEmpty then fieldsAux rest []
      else acc.reverse :: fieldsAux rest []
    else fieldsAux rest (c :: acc)

/-- `SplitByMultiple` from `setup.go`. -/
def SplitByMultiple (str : String) : List String :=
  (fieldsAux str.toList []).map (fun cs => String.mk cs)

/-- ASCII uppercasing of one character (the fragment of Go `strings.ToUpper`
exercised by severity tokens; non-ASCII letters are passed through). -/
def upperChar (c : Char) : Char :=
  if c = 'a' then 'A' else if c = 'b' then 'B' else if c = 'c' then 'C'
  else if c = 'd' then 'D' else if c = 'e' then 'E' else if c = 'f' then 'F'
  else if c = 'g' then 'G' else if c = 'h' then 'H' else if c = 'i' then 'I'
  else if c = 'j' then 'J' else if c = 'k' then 'K' else if c = 'l' then 'L'
  else if c = 'm' then 'M' else if c = 'n' then 'N' else if c = 'o' then 'O'
  else if c = 'p' then 'P' else if c = 'q' then 'Q' else if c = 'r' then 'R'
  else if c = 's' then 'S' else if c = 't' then 'T' else if c = 'u' then 'U'
  else if c = 'v' then 'V' else if c = 'w' then 'W' else if c = 'x' then 'X'
  else if c = 'y' then 'Y' else if c = 'z' then 'Z' else c

/-- Model of Go `strings.ToUpper` (ASCII fragment, see `upperChar`). -/
def upperString (s : String) : String := String.mk (s.toList.map upperChar)

/-- The per-token normalization shared by `convertJsonConfigToLoggerConfig`
and `SetupLogger`: uppercase, map `WARNING`/`WARN` to the padded key
`"WARN "` and `INFO` to `"INFO "`. -/
def normalizeToken (tok : String) : String :=
  let u := upperString tok
  let u1 := if u = "WARNING" || u = "WARN" then "WARN " else u
  if u1 = "INFO" then "INFO " else u1

/-- The token loop shared by `convertJsonConfigToLoggerConfig` (error text
`"invalid log level: "` / `"invalid api log level: "`) and `SetupLogger`
(error text `"invalid file log level: "`): an empty token breaks the loop
keeping what was accumulated; an unknown token aborts with `em ++ token`. -/
def parseTokens (em : String) : List String → Except String (List LogLevel)
  | [] => Except.ok []
  | tok :: rest =>
    if tok = "" then Except.ok []
    else
      match stringToLevel (normalizeToken tok) with
      | none => Except.error (em ++ normalizeToken tok)
      | some lvl =>
        match parseTokens em rest with
        | Except.ok ls => Except.ok (lvl :: ls)
        | Except.error e => Except.error e

/-- The post-loop default of both translators: an empty severity list becomes
`{INFO, ERROR, WARNING}`. -/
def withDefault (ls : List LogLevel) : List LogLevel :=
  if ls = [] then [INFO, ERROR, WARNING] else ls

/-- `JsonConfig` from `setup.go`/`modern.go` (the user-facing configuration;
`Structured` is read by `convertJsonConfigToLoggerConfig`). -/
structure JsonConfig where
  Levels : String := ""
  ApiLevels : String := ""
  Output : String := ""
  NoColors : Bool := false
  Json : Bool := false
  Structured : Bool := false
  Utc : Bool := false
  deriving DecidableEq, Repr

/-- `LoggerConfig` from `setup.go`/`modern.go`; the unexported
`logger *log.Logger` handle (the writer) is not part of the observable
model — writes are traced as actions instead. -/
structure LoggerConfig where
  Levels : List LogLevel := []
  ApiLevels : List LogLevel := []
  Stdout : Bool := false
  Disabled : Bool := false
  DebugEnabled : Bool := false
  DisabledAPI : Bool := false
  Colors : Bool := false
  Utc : Bool := false
  FilePath : String := ""
  Structured : Bool := false
  Json : Bool := false
  deriving DecidableEq, Repr

/-- `convertJsonConfigToLoggerConfig` from `modern.go`. -/
def convertJsonConfigToLoggerConfig (config : JsonConfig) :
    Except String LoggerConfig :=
  match parseTokens "invalid log level: " (SplitByMultiple config.Levels) with
  | Except.error e => Except.error e
  | Except.ok ls0 =>
    let upperLevels := withDefault ls0
    match parseTokens "invalid api log level: " (SplitByMultiple config.ApiLevels) with
    | Except.error e => Except.error e
    | Except.ok as0 =>
      let upperApiLevels := withDefault as0
      let output := if upperString config.Output = "STDOUT" then "" else config.Output
      let structuredOutput := config.Json || config.Structured
      Except.ok
        { Levels := upperLevels
          ApiLevels := upperApiLevels
          Stdout := output = ""
          Colors := !config.NoColors
          Disabled := upperLevels.contains DISABLED
          DebugEnabled := upperLevels.contains DEBUG
          DisabledAPI := upperApiLevels.contains DISABLED
          Utc := config.Utc
          FilePath := output
          Structured := structuredOutput
          Json := config.Json }

/-- The package-level mutable state read by `AddLogger`/`SetupLogger`
(`var loggers []*LoggerConfig` and `var stdOutLoggerExists bool`). -/
structure SetupState where
  loggers : List LoggerConfig := []
  stdOutLoggerExists : Bool := false
  deriving DecidableEq, Repr

/-- `AddLogger` from `setup.go`: resolves the destination (file opening is the
oracle `openOk`), marks the stdout flag, and returns the configuration; it
does not itself append to the package `loggers` list.  The `log.Lshortfile`
flag it computes only changes the underlying writer, which is not part of
the observable model. -/
def AddLogger (openOk : String → Bool) (st : SetupState) (logger : LoggerConfig) :
    Except String (LoggerConfig × SetupState) :=
  if logger.Stdout then
    Except.ok (logger, { st with stdOutLoggerExists := true })
  else if openOk logger.FilePath then
    Except.ok (logger, st)
  else
    Except.error ("failed to open log file: " ++ logger.FilePath)

/-- `SetupLogger` from `setup.go`, as a state transformer: returns the
`error` result together with the new package-level state. -/
def SetupLogger (openOk : String → Bool) (st : SetupState) (config : JsonConfig) :
    Except String Unit × SetupState :=
  match parseTokens "invalid file log level: " (SplitByMultiple config.Levels) with
  | Except.error e => (Except.error e, { st with loggers := [] })
  | Except.ok ls0 =>
    let upperLevels := withDefault ls0
    match parseTokens "invalid api log level: " (SplitByMultiple config.ApiLevels) with
    | Except.error e => (Except.error e, st)
    | Except.ok as0 =>
      let upperApiLevels := withDefault as0
      if upperLevels.contains DISABLED && upperApiLevels.contains DISABLED then
        (Except.ok (), { st with loggers := [] })
      else
        let output := if upperString config.Output = "STDOUT" then "" else config.Output
        if output = "" && st.stdOutLoggerExists then
          (Except.error "stdout logger already exists", st)
        else
          let cfg : LoggerConfig :=
            { Levels := upperLevels
              ApiLevels := upperApiLevels
              Stdout := output = ""
              Colors := !config.NoColors
              Disabled := upperLevels.contains DISABLED
              DebugEnabled := upperLevels.contains DEBUG
              DisabledAPI := upperApiLevels.contains DISABLED
              Utc := config.Utc
              FilePath := output }
          match AddLogger openOk st cfg with
          | Except.error e => (Except.error e, st)
          | Except.ok (lc, st2) =>
            (Except.ok (), { st2 with loggers := st2.loggers ++ [lc] })

/-- A logger instance (`modernLogger` from `modern.go`): the primary
configuration plus any further configurations added by `addConfig`, and the
attributes/groups accumulated by `With`/`WithGroup` (the `slog` handler
chain).  Go keeps these as `configs []*LoggerConfig` with `configs[0]`
the constructor's configuration. -/
structure ModernLogger where
  primary : LoggerConfig
  others : List LoggerConfig := []
  attrs : List String := []
  groups : List String := []
  deriving DecidableEq, Repr

/-- `NewLogger` from `modern.go`: translate the configuration, open the
slog output (oracle), create the instance configuration via `AddLogger`,
and return the instance.  The slog handler construction itself carries no
observable state beyond the configuration. -/
def NewLogger (openOk : String → Bool) (st : SetupState) (config : JsonConfig) :
    Except String (ModernLogger × SetupState) :=
  match convertJsonConfigToLoggerConfig config with
  | Except.error e => Except.error ("convert config: " ++ e)
  | Except.ok lc =>
    if config.Output ≠ "" && upperString config.Output ≠ "STDOUT" &&
        !(openOk config.Output) then
      Except.error ("failed to open log file: " ++ config.Output)
    else
      match AddLogger openOk st lc with
      | Except.error e => Except.error ("create logger instance: " ++ e)
      | Except.ok (li, st2) => Except.ok ({ primary := li }, st2)

/-- Which `slog` method a structured call lands on (the `switch level` in
`slogStructuredLog`). -/
inductive SlogCall where
  | sDebug
  | sInfo
  | sWarn
  | sError
  deriving DecidableEq, Repr

/-- One observable step of the logging pipeline: a `SetPrefix`+`Output` pair
on the destination at position `idx` of the configuration list, a routing of
the record into the `slog` handler chain, a line printed by the minimal
fallback writer (`log.Println`), or `os.Exit`. -/
inductive Action where
  | write (idx : Nat) (pfx body : String)
  | slogLog (withContext : Bool) (call : SlogCall) (msg : String)
      (attrs : List (String × String))
  | fallbackWrite (line : String)
  | exit (code : Nat)
  deriving DecidableEq, Repr

/-- Recognizer for `Action.exit`. -/
def Action.isExit : Action → Bool
  | .exit _ => true
  | _ => false

/-- Recognizer for `Action.slogLog`. -/
def Action.isSlogLog : Action → Bool
  | .slogLog .. => true
  | _ => false

/-- The body of `writeToConfig` (`modern.go`) and of the per-destination part
of `Log` (`write.go`), which are textually the same: pick the UTC or local
timestamp, append the color escape to it when colors are on, choose the
prefix shape from `formatted || config.DebugEnabled`, and append the reset
escape to the body when colors are on.  Returns `(prefix, body)` of the
emitted line. -/
def writeToConfig (config : LoggerConfig) (levelStr msg : String)
    (formatted : Bool) (color : String) (nowUtc nowLocal : String) :
    String × String :=
  let formattedTime := if config.Utc then nowUtc else nowLocal
  let formattedTime :=
    if config.Colors && color ≠ "" then formattedTime ++ color else formattedTime
  let pfx :=
    if formatted || config.DebugEnabled then
      formattedTime ++ " [" ++ levelStr ++ "] "
    else formattedTime ++ " "
  let body := if config.Colors && color ≠ "" then msg ++ colorReset else msg
  (pfx, body)

/-- One iteration of the dispatch loop shared by `Log` (`write.go`) and
`logWithLevel` (`modern.go`): `continue` (`none`) when the destination's
filter rejects the call, otherwise the emitted `(prefix, body)`.  `isFatal`
is the caller's `level != FATAL` test (on the string in `Log`, on the
`LogLevel` in `logWithLevel`, which agree). -/
def destWrite (config : LoggerConfig) (lvl : LogLevel) (isFatal : Bool)
    (levelStr msg : String) (formatted api : Bool)
    (color nowUtc nowLocal : String) : Option (String × String) :=
  if api then
    if config.DisabledAPI || !(config.ApiLevels.contains lvl) then none
    else some (writeToConfig config levelStr msg formatted color nowUtc nowLocal)
  else if !isFatal then
    if config.Disabled || !(config.Levels.contains lvl) then none
    else some (writeToConfig config levelStr msg formatted color nowUtc nowLocal)
  else some (writeToConfig config levelStr msg formatted color nowUtc nowLocal)

/-- The dispatch loop over the configuration list, with `i` the position of
the first configuration; emits one `Action.write` per non-filtered
destination, in list order. -/
def loopActions (cfgs : List LoggerConfig) (i : Nat) (lvl : LogLevel)
    (isFatal : Bool) (levelStr msg : String) (formatted api : Bool)
    (color nowUtc nowLocal : String) : List Action :=
  match cfgs with
  | [] => []
  | cfg :: rest =>
    match destWrite cfg lvl isFatal levelStr msg formatted api color nowUtc nowLocal with
    | some pb =>
      Action.write i pb.1 pb.2 ::
        loopActions rest (i + 1) lvl isFatal levelStr msg formatted api color nowUtc nowLocal
    | none =>
      loopActions rest (i + 1) lvl isFatal levelStr msg formatted api color nowUtc nowLocal

/-- The argument pairing of `slogStructuredLog`: arguments are paired
two-at-a-time and an odd trailing argument is dropped. -/
def pairArgs : List String → List (String × String)
  | a :: b :: rest => (a, b) :: pairArgs rest
  | _ => []

/-- `slogStructuredLog` from `modern.go`: route the record to the `slog`
method selected by the severity (FATAL uses `Error` and then exits); the
`switch` has no case for `DISABLED`/`API`, which therefore do nothing. -/
def slogStructuredLog (level : LogLevel) (msg : String) (args : List String) :
    List Action :=
  let attrs := pairArgs args
  match level with
  | DEBUG => [Action.slogLog false .sDebug msg attrs]
  | INFO => [Action.slogLog false .sInfo msg attrs]
  | WARNING => [Action.slogLog false .sWarn msg attrs]
  | ERROR => [Action.slogLog false .sError msg attrs]
  | FATAL => [Action.slogLog false .sError msg attrs, Action.exit 1]
  | _ => []

/-- `slogStructuredLogWithContext` from `modern.go` (same switch, the
context-aware `slog` methods). -/
def slogStructuredLogWithContext (level : LogLevel) (msg : String)
    (args : List String) : List Action :=
  let attrs := pairArgs args
  match level with
  | DEBUG => [Action.slogLog true .sDebug msg attrs]
  | INFO => [Action.slogLog true .sInfo msg attrs]
  | WARNING => [Action.slogLog true .sWarn msg attrs]
  | ERROR => [Action.slogLog true .sError msg attrs]
  | FATAL => [Action.slogLog true .sError msg attrs, Action.exit 1]
  | _ => []

/-- `(*modernLogger).logWithLevel` from `modern.go`, on an instance whose
configuration list is `primary :: others` (the Go code reads `configs[0]`,
so the list is never empty): the two structured short-circuits on the
primary configuration, then the per-destination loop, then the FATAL exit
after the loop. -/
def logWithLevel (primary : LoggerConfig) (others : List LoggerConfig)
    (level : LogLevel) (msg : String) (formatted api : Bool)
    (args : List String) (nowUtc nowLocal : String) : List Action :=
  if args.length > 0 && primary.Structured then
    slogStructuredLog level msg args
  else if primary.Structured then
    slogStructuredLog level msg args
  else
    let levelStr := levelToString level
    let color := getColorForLevel level
    loopActions (primary :: others) 0 level (level == FATAL) levelStr msg
        formatted api color nowUtc nowLocal ++
      (if level == FATAL then [Action.exit 1] else [])

/-- `(*modernLogger).logWithLevelAndContext` from `modern.go`: structured
instances route to the context-aware `slog` call, others fall back to
`logWithLevel` with the variadic arguments dropped. -/
def logWithLevelAndContext (primary : LoggerConfig) (others : List LoggerConfig)
    (level : LogLevel) (msg : String) (formatted api : Bool)
    (args : List String) (nowUtc nowLocal : String) : List Action :=
  if primary.Structured then
    slogStructuredLogWithContext level msg args
  else
    logWithLevel primary others level msg formatted api [] nowUtc nowLocal

/-- `(*modernLogger).API` via `logAPI` from `modern.go` (`formatted = false`;
the classification color is discarded by `logAPI`). -/
def modernAPI (primary : LoggerConfig) (others : List LoggerConfig)
    (statusCode : Int) (msg : String) (args : List String)
    (nowUtc nowLocal : String) : List Action :=
  logWithLevel primary others (getAPILevelAndColor statusCode).1 msg false true
    args nowUtc nowLocal

/-- `(*modernLogger).APIf` via `logAPI` from `modern.go` (the pre-rendered
format result arrives as `msg`; `modern.go` passes `formatted = true`). -/
def modernAPIf (primary : LoggerConfig) (others : List LoggerConfig)
    (statusCode : Int) (msg : String) (nowUtc nowLocal : String) : List Action :=
  logWithLevel primary others (getAPILevelAndColor statusCode).1 msg true true
    [] nowUtc nowLocal

/-- `Log` from `write.go`: look the level string up in `stringToLevel` (a Go
map read, zero value `DISABLED` when absent), run the per-destination loop,
and exit after the loop when the level string is `"FATAL"`. -/
def Log (loggers : List LoggerConfig) (level : String) (msg : String)
    (pfxFlag api : Bool) (color : String) (nowUtc nowLocal : String) :
    List Action :=
  let LEVEL := (stringToLevel level).getD DISABLED
  loopActions loggers 0 LEVEL (level == "FATAL") level msg pfxFlag api color
      nowUtc nowLocal ++
    (if level == "FATAL" then [Action.exit 1] else [])

/-- The package-level state read by the legacy free functions: the legacy
`loggers` list and the `globalLogger` registration slot (`write.go`). -/
structure GlobalState where
  loggers : List LoggerConfig := []
  global : Option ModernLogger := none
  deriving DecidableEq, Repr

/-- Which of the three branches of a legacy free function ran: the legacy
`Log` path over the package `loggers` list, forwarding to the registered
global Logger Instance, or the minimal built-in fallback writer. -/
inductive Path where
  | legacy
  | forward
  | fallback
  deriving DecidableEq, Repr

/-- Result of a legacy free function call: the branch taken and its trace. -/
structure FreeResult where
  path : Path
  actions : List Action
  deriving DecidableEq, Repr

/-- `Debugf` from `write.go` (the message arrives pre-rendered by
`fmt.Sprintf`). -/
def Debugf (st : GlobalState) (msg : String) (nowUtc nowLocal : String) :
    FreeResult :=
  if st.loggers.length > 0 then
    ⟨.legacy, Log st.loggers "DEBUG" msg true false GRAY nowUtc nowLocal⟩
  else
    match st.global with
    | some g => ⟨.forward, logWithLevel g.primary g.others DEBUG msg true false [] nowUtc nowLocal⟩
    | none => ⟨.fallback, [Action.fallbackWrite ("[DEBUG] " ++ msg)]⟩

/-- `Infof` from `write.go`. -/
def Infof (st : GlobalState) (msg : String) (nowUtc nowLocal : String) :
    FreeResult :=
  if st.loggers.length > 0 then
    ⟨.legacy, Log st.loggers "INFO " msg true false "" nowUtc nowLocal⟩
  else
    match st.global with
    | some g => ⟨.forward, logWithLevel g.primary g.others INFO msg true false [] nowUtc nowLocal⟩
    | none => ⟨.fallback, [Action.fallbackWrite ("[INFO] " ++ msg)]⟩

/-- `Warningf` from `write.go`. -/
def Warningf (st : GlobalState) (msg : String) (nowUtc nowLocal : String) :
    FreeResult :=
  if st.loggers.length > 0 then
    ⟨.legacy, Log st.loggers "WARN " msg true false YELLOW nowUtc nowLocal⟩
  else
    match st.global with
    | some g => ⟨.forward, logWithLevel g.primary g.others WARNING msg true false [] nowUtc nowLocal⟩
    | none => ⟨.fallback, [Action.fallbackWrite ("[WARN ] " ++ msg)]⟩

/-- `Errorf` from `write.go`. -/
def Errorf (st : GlobalState) (msg : String) (nowUtc nowLocal : String) :
    FreeResult :=
  if st.loggers.length > 0 then
    ⟨.legacy, Log st.loggers "ERROR" msg true false RED nowUtc nowLocal⟩
  else
    match st.global with
    | some g => ⟨.forward, logWithLevel g.primary g.others ERROR msg true false [] nowUtc nowLocal⟩
    | none => ⟨.fallback, [Action.fallbackWrite ("[ERROR] " ++ msg)]⟩

/-- `Fatalf` from `write.go` (the fallback prints then calls `os.Exit(1)`). -/
def Fatalf (st : GlobalState) (msg : String) (nowUtc nowLocal : String) :
    FreeResult :=
  if st.loggers.length > 0 then
    ⟨.legacy, Log st.loggers "FATAL" msg true false RED nowUtc nowLocal⟩
  else
    match st.global with
    | some g => ⟨.forward, logWithLevel g.primary g.others FATAL msg true false [] nowUtc nowLocal⟩
    | none => ⟨.fallback, [Action.fallbackWrite ("[FATAL] " ++ msg), Action.exit 1]⟩

/-- `Debug` from `write.go` (the message arrives pre-rendered by
`sprintArgs`). -/
def Debug (st : GlobalState) (msg : String) (nowUtc nowLocal : String) :
    FreeResult :=
  if st.loggers.length > 0 then
    ⟨.legacy, Log st.loggers "DEBUG" msg true false GRAY nowUtc nowLocal⟩
  else
    match st.global with
    | some g => ⟨.forward, logWithLevel g.primary g.others DEBUG msg false false [] nowUtc nowLocal⟩
    | none => ⟨.fallback, [Action.fallbackWrite ("[DEBUG] " ++ msg)]⟩

/-- `Info` from `write.go`. -/
def Info (st : GlobalState) (msg : String) (nowUtc nowLocal : String) :
    FreeResult :=
  if st.loggers.length > 0 then
    ⟨.legacy, Log st.loggers "INFO " msg true false "" nowUtc nowLocal⟩
  else
    match st.global with
    | some g => ⟨.forward, logWithLevel g.primary g.others INFO msg false false [] nowUtc nowLocal⟩
    | none => ⟨.fallback, [Action.fallbackWrite ("[INFO] " ++ msg)]⟩

/-- `Warning` from `write.go`. -/
def Warning (st : GlobalState) (msg : String) (nowUtc nowLocal : String) :
    FreeResult :=
  if st.loggers.length > 0 then
    ⟨.legacy, Log st.loggers "WARN " msg true false YELLOW nowUtc nowLocal⟩
  else
    match st.global with
    | some g => ⟨.forward, logWithLevel g.primary g.others WARNING msg false false [] nowUtc nowLocal⟩
    | none => ⟨.fallback, [Action.fallbackWrite ("[WARN ] " ++ msg)]⟩

/-- `Error` from `write.go`. -/
def Error (st : GlobalState) (msg : String) (nowUtc nowLocal : String) :
    FreeResult :=
  if st.loggers.length > 0 then
    ⟨.legacy, Log st.loggers "ERROR" msg true false RED nowUtc nowLocal⟩
  else
    match st.global with
    | some g => ⟨.forward, logWithLevel g.primary g.others ERROR msg false false [] nowUtc nowLocal⟩
    | none => ⟨.fallback, [Action.fallbackWrite ("[ERROR] " ++ msg)]⟩

/-- `Fatal` from `write.go`. -/
def Fatal (st : GlobalState) (msg : String) (nowUtc nowLocal : String) :
    FreeResult :=
  if st.loggers.length > 0 then
    ⟨.legacy, Log st.loggers "FATAL" msg true false RED nowUtc nowLocal⟩
  else
    match st.global with
    | some g => ⟨.forward, logWithLevel g.primary g.others FATAL msg false false [] nowUtc nowLocal⟩
    | none => ⟨.fallback, [Action.fallbackWrite ("[FATAL] " ++ msg), Action.exit 1]⟩

/-- `Api` from `write.go`: the global Logger Instance is consulted first
(unlike the non-API free functions); otherwise the inline classification
feeds `Log` with `prefix = false`, `api = true`. -/
def Api (st : GlobalState) (statusCode : Int) (msg : String)
    (nowUtc nowLocal : String) : FreeResult :=
  match st.global with
  | some g => ⟨.forward, modernAPI g.primary g.others statusCode msg [] nowUtc nowLocal⟩
  | none =>
    let ls := apiStatusStrings statusCode
    ⟨.legacy, Log st.loggers ls.1 msg false true ls.2 nowUtc nowLocal⟩

/-- `Apif` from `write.go` (forwards to the instance `APIf`). -/
def Apif (st : GlobalState) (statusCode : Int) (msg : String)
    (nowUtc nowLocal : String) : FreeResult :=
  match st.global with
  | some g => ⟨.forward, modernAPIf g.primary g.others statusCode msg nowUtc nowLocal⟩
  | none =>
    let ls := apiStatusStrings statusCode
    ⟨.legacy, Log st.loggers ls.1 msg false true ls.2 nowUtc nowLocal⟩

/-- A `context.Context` value; the library only threads it through to the
context-aware `slog` calls, so it carries no observable structure here. -/
abbrev Ctx := Unit

/-- `noOpLogger` from the global-facade source file: the no-op `Logger`
implementation returned by the package-level `With`/`WithGroup` when no
global Logger Instance is registered.  Every method body in Go is empty. -/
structure noOpLogger where
  deriving DecidableEq, Repr

namespace noOpLogger

/-- No-op `Debug`. -/
def Debug (_ : noOpLogger) (_ : String) (_ : List String) : List Action := []

/-- No-op `Info`. -/
def Info (_ : noOpLogger) (_ : String) (_ : List String) : List Action := []

/-- No-op `Warn`. -/
def Warn (_ : noOpLogger) (_ : String) (_ : List String) : List Action := []

/-- No-op `Error`. -/
def Error (_ : noOpLogger) (_ : String) (_ : List String) : List Action := []

/-- No-op `Fatal` (does not exit). -/
def Fatal (_ : noOpLogger) (_ : String) (_ : List String) : List Action := []

/-- No-op `Debugf`. -/
def Debugf (_ : noOpLogger) (_ : String) (_ : List String) : List Action := []

/-- No-op `Infof`. -/
def Infof (_ : noOpLogger) (_ : String) (_ : List String) : List Action := []

/-- No-op `Warnf`. -/
def Warnf (_ : noOpLogger) (_ : String) (_ : List String) : List Action := []

/-- No-op `Errorf`. -/
def Errorf (_ : noOpLogger) (_ : String) (_ : List String) : List Action := []

/-- No-op `Fatalf` (does not exit). -/
def Fatalf (_ : noOpLogger) (_ : String) (_ : List String) : List Action := []

/-- No-op `DebugContext`. -/
def DebugContext (_ : noOpLogger) (_ : Ctx) (_ : String) (_ : List String) :
    List Action := []

/-- No-op `InfoContext`. -/
def InfoContext (_ : noOpLogger) (_ : Ctx) (_ : String) (_ : List String) :
    List Action := []

/-- No-op `WarnContext`. -/
def WarnContext (_ : noOpLogger) (_ : Ctx) (_ : String) (_ : List String) :
    List Action := []

/-- No-op `ErrorContext`. -/
def ErrorContext (_ : noOpLogger) (_ : Ctx) (_ : String) (_ : List String) :
    List Action := []

/-- No-op `FatalContext` (does not exit). -/
def FatalContext (_ : noOpLogger) (_ : Ctx) (_ : String) (_ : List String) :
    List Action := []

/-- No-op `DebugfContext`. -/
def DebugfContext (_ : noOpLogger) (_ : Ctx) (_ : String) (_ : List String) :
    List Action := []

/-- No-op `InfofContext`. -/
def InfofContext (_ : noOpLogger) (_ : Ctx) (_ : String) (_ : List String) :
    List Action := []

/-- No-op `WarnfContext`. -/
def WarnfContext (_ : noOpLogger) (_ : Ctx) (_ : String) (_ : List String) :
    List Action := []

/-- No-op `ErrorfContext`. -/
def ErrorfContext (_ : noOpLogger) (_ : Ctx) (_ : String) (_ : List String) :
    List Action := []

/-- No-op `FatalfContext` (does not exit). -/
def FatalfContext (_ : noOpLogger) (_ : Ctx) (_ : String) (_ : List String) :
    List Action := []

/-- No-op `API`. -/
def API (_ : noOpLogger) (_ : Int) (_ : String) (_ : List String) :
    List Action := []

/-- No-op `APIf`. -/
def APIf (_ : noOpLogger) (_ : Int) (_ : String) (_ : List String) :
    List Action := []

/-- No-op `APIContext`. -/
def APIContext (_ : noOpLogger) (_ : Ctx) (_ : Int) (_ : String)
    (_ : List String) : List Action := []

/-- No-op `APIfContext`. -/
def APIfContext (_ : noOpLogger) (_ : Ctx) (_ : Int) (_ : String)
    (_ : List String) : List Action := []

/-- `With` of the no-op logger returns the receiver itself. -/
def With (n : noOpLogger) (_ : List String) : noOpLogger := n

/-- `WithGroup` of the no-op logger returns the receiver itself. -/
def WithGroup (n : noOpLogger) (_ : String) : noOpLogger := n

end noOpLogger

/-- `(*modernLogger).With` from `modern.go`: a new instance sharing the same
configuration list, with the attributes added to the `slog` chain. -/
def ModernLogger.With (m : ModernLogger) (args : List String) : ModernLogger :=
  { m with attrs := m.attrs ++ args }

/-- `(*modernLogger).WithGroup` from `modern.go`. -/
def ModernLogger.WithGroup (m : ModernLogger) (name : String) : ModernLogger :=
  { m with groups := m.groups ++ [name] }

/-- The value returned by the package-level `With`/`WithGroup`: either a real
logger instance or the no-op logger. -/
inductive LoggerVal where
  | modern (m : ModernLogger)
  | noOp (n : noOpLogger)
  deriving DecidableEq, Repr

/-- The package-level `With` free function: forwards to the registered
global Logger Instance, or returns a fresh `noOpLogger`. -/
def With (st : GlobalState) (args : List String) : LoggerVal :=
  match st.global with
  | some g => .modern (g.With args)
  | none => .noOp {}

/-- The package-level `WithGroup` free function. -/
def WithGroup (st : GlobalState) (name : String) : LoggerVal :=
  match st.global with
  | some g => .modern (g.WithGroup name)
  | none => .noOp {}

/-- Does a trace route through the structured (`slog`) rendering path? -/
def usesSlog (as : List Action) : Bool := as.any Action.isSlogLog

theorem destWrite_plain_eq (cfg : LoggerConfig) (lvl : LogLevel)
    (levelStr msg : String) (formatted : Bool) (color nowU nowL : String) :
    destWrite cfg lvl false levelStr msg formatted false color nowU nowL =
      if cfg.Disabled || !(cfg.Levels.contains lvl) then none
      else some (writeToConfig cfg levelStr msg formatted color nowU nowL) := rfl

theorem destWrite_api_eq (cfg : LoggerConfig) (lvl : LogLevel) (isFatal : Bool)
    (levelStr msg : String) (formatted : Bool) (color nowU nowL : String) :
    destWrite cfg lvl isFatal levelStr msg formatted true color nowU nowL =
      if cfg.DisabledAPI || !(cfg.ApiLevels.contains lvl) then none
      else some (writeToConfig cfg levelStr msg formatted color nowU nowL) := rfl

theorem destWrite_fatal_eq (cfg : LoggerConfig) (lvl : LogLevel)
    (levelStr msg : String) (formatted : Bool) (color nowU nowL : String) :
    destWrite cfg lvl true levelStr msg formatted false color nowU nowL =
      some (writeToConfig cfg levelStr msg formatted color nowU nowL) := rfl

theorem destWrite_plain_some_iff (cfg : LoggerConfig) (lvl : LogLevel)
    (levelStr msg : String) (formatted : Bool) (color nowU nowL : String) :
    (∃ pb, destWrite cfg lvl false levelStr msg formatted false color nowU nowL
        = some pb) ↔
      (cfg.Disabled = false ∧ cfg.Levels.contains lvl = true) := by
  rw [destWrite_plain_eq]
  by_cases h : cfg.Disabled || !(cfg.Levels.contains lvl) <;> simp_all
  intro hd
  rcases h with h | h
  · rw [hd] at h
    exact absurd h (by decide)
  · exact h

/-- A `write` at position `i` occurs in the dispatch loop started at `j`
exactly when the destination at offset `i - j` emits it. -/
theorem write_mem_loopActions (cfgs : List LoggerConfig) (j i : Nat)
    (pre body : String) (lvl : LogLevel) (isFatal : Bool) (levelStr msg : String)
    (formatted api : Bool) (color nowU nowL : String) :
    Action.write i pre body ∈
        loopActions cfgs j lvl isFatal levelStr msg formatted api color nowU nowL ↔
      ∃ k, ∃ cfg, cfgs.get? k = some cfg ∧ i = j + k ∧
        destWrite cfg lvl isFatal levelStr msg formatted api color nowU nowL
          = some (pre, body) := by
  induction cfgs generalizing j with
  | nil => simp [loopActions]
  | cons cfg rest ih =>
    simp only [loopActions]
    cases h : destWrite cfg lvl isFatal levelStr msg formatted api color nowU nowL with
    | none =>
      rw [ih (j + 1)]
      constructor
      · rintro ⟨k, c, hg, hi, hd⟩
        exact ⟨k + 1, c, by simpa using hg, by omega, hd⟩
      · rintro ⟨k, c, hg, hi, hd⟩
        cases k with
        | zero =>
          simp only [List.get?_cons_zero, Option.some.injEq] at hg
          subst hg
          rw [h] at hd
          exact absurd hd (by simp)
        | succ k =>
          exact ⟨k, c, by simpa using hg, by omega, hd⟩
    | some pb =>
      simp only [List.mem_cons]
      rw [ih (j + 1)]
      constructor
      · rintro (heq | ⟨k, c, hg, hi, hd⟩)
        · injection heq with h1 h2 h3
          subst h1; subst h2; subst h3
          exact ⟨0, cfg, rfl, by omega, by rw [h]⟩
        · exact ⟨k + 1, c, by simpa using hg, by omega, hd⟩
      · rintro ⟨k, c, hg, hi, hd⟩
        cases k with
        | zero =>
          simp only [List.get?_cons_zero, Option.some.injEq] at hg
          subst hg
          rw [h] at hd
          injection hd with hd
          subst hd
          left
          simp [hi]
        | succ k =>
          right
          exact ⟨k, c, by simpa using hg, by omega, hd⟩

/-- In a FATAL dispatch the filter is bypassed: every destination, in order,
gets exactly one write. -/
theorem loopActions_fatal_all (cfgs : List LoggerConfig) (j : Nat)
    (lvl : LogLevel) (levelStr msg : String) (formatted : Bool)
    (color nowU nowL : String) :
    loopActions cfgs j lvl true levelStr msg formatted false color nowU nowL =
      (List.enumFrom j cfgs).map fun p =>
        Action.write p.1 (writeToConfig p.2 levelStr msg formatted color nowU nowL).1
          (writeToConfig p.2 levelStr msg formatted color nowU nowL).2 := by
  induction cfgs generalizing j with
  | nil => rfl
  | cons cfg rest ih => simp [loopActions, destWrite_fatal_eq, List.enumFrom, ih]

theorem loopActions_any_isSlogLog (cfgs : List LoggerConfig) (j : Nat)
    (lvl : LogLevel) (isFatal : Bool) (levelStr msg : String)
    (formatted api : Bool) (color nowU nowL : String) :
    (loopActions cfgs j lvl isFatal levelStr msg formatted api color nowU nowL).any
      Action.isSlogLog = false := by
  induction cfgs generalizing j with
  | nil => rfl
  | cons cfg rest ih =>
    simp only [loopActions]
    cases h : destWrite cfg lvl isFatal levelStr msg formatted api color nowU nowL with
    | none => exact ih (j + 1)
    | some pb => simp [Action.isSlogLog, ih (j + 1)]

/-- C1 (amended): on a non-structured instance, a normal (non-API) call at a
severity other than FATAL produces output at a destination if and only if the
destination is not disabled (its configured set does not contain DISABLED)
and the severity is a member of the destination's enabled severity set —
set membership, not threshold comparison; the same holds for the legacy
`Log` path of `write.go` on any package `loggers` list. -/
theorem perDestinationSetMembership
    (primary : LoggerConfig) (others : List LoggerConfig) (level : LogLevel)
    (msg : String) (formatted : Bool) (args : List String)
    (nowU nowL : String) (i : Nat) (cfg : LoggerConfig)
    (hstruct : primary.Structured = false) (hfatal : level ≠ FATAL)
    (hget : (primary :: others).get? i = some cfg) :
    ((∃ pre body, Action.write i pre body ∈
        logWithLevel primary others level msg formatted false args nowU nowL) ↔
      (cfg.Disabled = false ∧ cfg.Levels.contains level = true)) ∧
    (∀ (loggers : List LoggerConfig) (levelStr : String) (pfxFlag : Bool)
        (color : String) (cfg2 : LoggerConfig),
      loggers.get? i = some cfg2 → levelStr ≠ "FATAL" →
      ((∃ pre body, Action.write i pre body ∈
          Log loggers levelStr msg pfxFlag false color nowU nowL) ↔
        (cfg2.Disabled = false ∧
          cfg2.Levels.contains ((stringToLevel levelStr).getD DISABLED) = true))) := by
  have hbeq : (level == FATAL) = false := by
    cases level <;> simp_all
  have hplain : logWithLevel primary others level msg formatted false args nowU nowL =
      loopActions (primary :: others) 0 level false (levelToString level) msg
        formatted false (getColorForLevel level) nowU nowL := by
    rw [logWithLevel]
    simp [hstruct, hbeq]
  constructor
  · rw [hplain]
    constructor
    · rintro ⟨pre, body, hmem⟩
      rw [write_mem_loopActions] at hmem
      obtain ⟨k, c, hg, hi, hd⟩ := hmem
      have hk : k = i := by omega
      subst hk
      rw [hget] at hg
      injection hg with hg
      subst hg
      exact (destWrite_plain_some_iff cfg level (levelToString level) msg
        formatted (getColorForLevel level) nowU nowL).mp ⟨(pre, body), hd⟩
    · intro hcond
      obtain ⟨pb, hd⟩ := (destWrite_plain_some_iff cfg level (levelToString level)
        msg formatted (getColorForLevel level) nowU nowL).mpr hcond
      refine ⟨pb.1, pb.2, ?_⟩
      rw [write_mem_loopActions]
      exact ⟨i, cfg, hget, by omega, by rw [hd]⟩
  · intro loggers levelStr pfxFlag color cfg2 hget2 hfs
    have hbeq2 : (levelStr == "FATAL") = false := by
      simp [hfs]
    have hleg : Log loggers levelStr msg pfxFlag false color nowU nowL =
        loopActions loggers 0 ((stringToLevel levelStr).getD DISABLED) false
          levelStr msg pfxFlag false color nowU nowL := by
      rw [Log]
      simp [hbeq2]
    rw [hleg]
    constructor
    · rintro ⟨pre, body, hmem⟩
      rw [write_mem_loopActions] at hmem
      obtain ⟨k, c, hg, hi, hd⟩ := hmem
      have hk : k = i := by omega
      subst hk
      rw [hget2] at hg
      injection hg with hg
      subst hg
      exact (destWrite_plain_some_iff cfg2 _ levelStr msg pfxFlag color nowU
        nowL).mp ⟨(pre, body), hd⟩
    · intro hcond
      obtain ⟨pb, hd⟩ := (destWrite_plain_some_iff cfg2
        ((stringToLevel levelStr).getD DISABLED) levelStr msg pfxFlag color nowU
        nowL).mpr hcond
      refine ⟨pb.1, pb.2, ?_⟩
      rw [write_mem_loopActions]
      exact ⟨i, cfg2, hget2, by omega, by rw [hd]⟩

/-- C1 witness: a destination enabling exactly `{INFO, ERROR}` suppresses a
WARNING call (no write is emitted), even though WARNING lies strictly between
ERROR and INFO in the legacy numeric order of the Go constants. -/
theorem perDestinationSetMembership_witness :
    (¬∃ pre body, Action.write 0 pre body ∈
        logWithLevel { Levels := [LogLevel.INFO, LogLevel.ERROR] } []
          LogLevel.WARNING "m" false false [] "T" "T") ∧
    LogLevel.ERROR.goValue < LogLevel.WARNING.goValue ∧
    LogLevel.WARNING.goValue < LogLevel.INFO.goValue := by
  refine ⟨?_, by decide, by decide⟩
  intro hex
  have h := (perDestinationSetMembership
    { Levels := [LogLevel.INFO, LogLevel.ERROR] } [] LogLevel.WARNING "m" false
    [] "T" "T" 0 { Levels := [LogLevel.INFO, LogLevel.ERROR] } rfl (by decide)
    rfl).1.mp hex
  exact absurd h.2 (by decide)

/-- C1 counterexample: the claim's iff fails as stated — translating
`levels = "disabled,info"` yields a destination whose enabled severity set
contains INFO, yet an INFO call on that destination produces no output,
because the set also contains DISABLED and the derived `Disabled` flag
short-circuits the membership test. -/
theorem perDestinationSetMembership_counterexample :
    ∃ lc, convertJsonConfigToLoggerConfig { Levels := "disabled,info" } =
        Except.ok lc ∧
      lc.Levels.contains LogLevel.INFO = true ∧
      logWithLevel lc [] LogLevel.INFO "msg" false false [] "T" "T" = [] := by
  exact ⟨_, rfl, rfl, rfl⟩

/-- C2: every FATAL-level call on a logger instance renders the message and
then terminates exactly once with exit status 1, the exit being the final
action of the trace.  On a non-structured instance the per-destination filter
is bypassed entirely — membership of FATAL in any enabled set is irrelevant —
and every configured destination receives exactly one write, in order, before
the single exit; on a structured instance the single `slog` render (the
`Error` method) precedes the single exit, for the plain and the context-aware
entry points alike; and unconditionally the trace of either entry point is an
exit-free rendering followed by exactly one `exit 1`. -/
theorem fatalRendersAllThenExitsOnce
    (primary : LoggerConfig) (others : List LoggerConfig) (msg : String)
    (formatted : Bool) (args : List String) (nowU nowL : String) :
    (primary.Structured = false →
      logWithLevel primary others LogLevel.FATAL msg formatted false args nowU nowL =
        ((primary :: others).enum.map fun p =>
          Action.write p.1 (writeToConfig p.2 "FATAL" msg formatted RED nowU nowL).1
            (writeToConfig p.2 "FATAL" msg formatted RED nowU nowL).2) ++
          [Action.exit 1] ∧
      (∀ a ∈ (primary :: others).enum.map fun p =>
          Action.write p.1 (writeToConfig p.2 "FATAL" msg formatted RED nowU nowL).1
            (writeToConfig p.2 "FATAL" msg formatted RED nowU nowL).2,
        a.isExit = false)) ∧
    (primary.Structured = true →
      logWithLevel primary others LogLevel.FATAL msg formatted false args nowU nowL =
        [Action.slogLog false SlogCall.sError msg (pairArgs args), Action.exit 1] ∧
      logWithLevelAndContext primary others LogLevel.FATAL msg formatted false
          args nowU nowL =
        [Action.slogLog true SlogCall.sError msg (pairArgs args), Action.exit 1]) ∧
    (∃ pref,
      logWithLevel primary others LogLevel.FATAL msg formatted false args nowU nowL =
        pref ++ [Action.exit 1] ∧ ∀ a ∈ pref, a.isExit = false) ∧
    (∃ pref,
      logWithLevelAndContext primary others LogLevel.FATAL msg formatted false
          args nowU nowL =
        pref ++ [Action.exit 1] ∧ ∀ a ∈ pref, a.isExit = false) := by
  have hplainEq : ∀ (ag : List String), primary.Structured = false →
      logWithLevel primary others LogLevel.FATAL msg formatted false ag nowU nowL =
        ((primary :: others).enum.map fun p =>
          Action.write p.1 (writeToConfig p.2 "FATAL" msg formatted RED nowU nowL).1
            (writeToConfig p.2 "FATAL" msg formatted RED nowU nowL).2) ++
          [Action.exit 1] := by
    intro ag hstruct
    rw [logWithLevel]
    simp only [hstruct, Bool.and_false, Bool.false_eq_true, if_false,
      beq_self_eq_true, if_true]
    rw [loopActions_fatal_all]
    rfl
  have hnoexit : ∀ a ∈ (primary :: others).enum.map fun p =>
      Action.write p.1 (writeToConfig p.2 "FATAL" msg formatted RED nowU nowL).1
        (writeToConfig p.2 "FATAL" msg formatted RED nowU nowL).2,
      a.isExit = false := by
    intro a ha
    simp only [List.mem_map] at ha
    obtain ⟨p, _, hp⟩ := ha
    rw [← hp]
    rfl
  have hstructEq : ∀ (ag : List String), primary.Structured = true →
      logWithLevel primary others LogLevel.FATAL msg formatted false ag nowU nowL =
        [Action.slogLog false SlogCall.sError msg (pairArgs ag), Action.exit 1] := by
    intro ag hstruct
    rw [logWithLevel]
    simp only [hstruct, Bool.and_true, if_true, ite_self]
    rfl
  have hctxEq : primary.Structured = true →
      logWithLevelAndContext primary others LogLevel.FATAL msg formatted false
          args nowU nowL =
        [Action.slogLog true SlogCall.sError msg (pairArgs args), Action.exit 1] := by
    intro hstruct
    rw [logWithLevelAndContext, if_pos hstruct]
    rfl
  refine ⟨fun h => ⟨hplainEq args h, hnoexit⟩,
    fun h => ⟨hstructEq args h, hctxEq h⟩, ?_, ?_⟩
  · cases hs : primary.Structured with
    | false => exact ⟨_, hplainEq args hs, hnoexit⟩
    | true =>
      exact ⟨[Action.slogLog false SlogCall.sError msg (pairArgs args)],
        hstructEq args hs, by simp [Action.isExit]⟩
  · cases hs : primary.Structured with
    | false =>
      have hdrop : logWithLevelAndContext primary others LogLevel.FATAL msg
          formatted false args nowU nowL =
          logWithLevel primary others LogLevel.FATAL msg formatted false []
            nowU nowL := by
        rw [logWithLevelAndContext]
        simp only [hs, Bool.false_eq_true, if_false]
      rw [hdrop]
      exact ⟨_, hplainEq [] hs, hnoexit⟩
    | true =>
      exact ⟨[Action.slogLog true SlogCall.sError msg (pairArgs args)],
        hctxEq hs, by simp [Action.isExit]⟩

/-- C2 witness: two destinations, neither of which enables FATAL (one is even
disabled), both receive the FATAL write and the single exit comes last; on a
structured instance the same call makes the single slog Error render and then
the single exit, for both entry points. -/
theorem fatalRendersAllThenExitsOnce_witness :
    logWithLevel { Levels := [LogLevel.INFO] } [{ Disabled := true }]
        LogLevel.FATAL "m" false false [] "T" "L" =
      [Action.write 0 "L " "m", Action.write 1 "L " "m", Action.exit 1] ∧
    logWithLevel { Structured := true } [] LogLevel.FATAL "m" false false
        ["k", "v"] "T" "L" =
      [Action.slogLog false SlogCall.sError "m" [("k", "v")], Action.exit 1] ∧
    logWithLevelAndContext { Structured := true } [] LogLevel.FATAL "m" false
        false ["k", "v"] "T" "L" =
      [Action.slogLog true SlogCall.sError "m" [("k", "v")], Action.exit 1] := by
  refine ⟨?_, ?_, ?_⟩
  · have h := ((fatalRendersAllThenExitsOnce { Levels := [LogLevel.INFO] }
      [{ Disabled := true }] "m" false [] "T" "L").1 rfl).1
    rw [h]
    rfl
  · exact ((fatalRendersAllThenExitsOnce { Structured := true } [] "m" false
      ["k", "v"] "T" "L").2.1 rfl).1
  · exact ((fatalRendersAllThenExitsOnce { Structured := true } [] "m" false
      ["k", "v"] "T" "L").2.1 rfl).2

/-- C7: the structured/JSON routing decision is made by the first (primary)
configuration alone: for any call at a real call-site severity, the trace
goes through the `slog` path exactly when `configs[0].Structured` is true,
regardless of the other destinations' flags, for both the plain and the
context-aware entry points. -/
theorem structuredRoutingPrimaryConfig
    (primary : LoggerConfig) (others : List LoggerConfig) (level : LogLevel)
    (msg : String) (formatted api : Bool) (args : List String)
    (nowU nowL : String)
    (hcall : level = LogLevel.DEBUG ∨ level = LogLevel.INFO ∨
      level = LogLevel.WARNING ∨ level = LogLevel.ERROR ∨ level = LogLevel.FATAL) :
    usesSlog (logWithLevel primary others level msg formatted api args nowU nowL) =
      primary.Structured ∧
    usesSlog (logWithLevelAndContext primary others level msg formatted api args
        nowU nowL) = primary.Structured := by
  cases hstruct : primary.Structured with
  | true =>
    rw [logWithLevel, logWithLevelAndContext]
    simp only [hstruct, Bool.and_true, if_true, ite_self]
    constructor
    · rcases hcall with h | h | h | h | h <;> subst h <;> rfl
    · rcases hcall with h | h | h | h | h <;> subst h <;> rfl
  | false =>
    have key : ∀ (fm ap : Bool) (ag : List String),
        usesSlog (logWithLevel primary others level msg fm ap ag nowU nowL) = false := by
      intro fm ap ag
      rw [logWithLevel]
      simp only [hstruct, Bool.and_false, Bool.false_eq_true, if_false]
      rw [usesSlog, List.any_append, loopActions_any_isSlogLog]
      simp only [Bool.false_or]
      split
      · rfl
      · rfl
    refine ⟨key formatted api args, ?_⟩
    rw [logWithLevelAndContext]
    simp only [hstruct, Bool.false_eq_true, if_false]
    exact key formatted api []

/-- C7 witness: with a structured primary and a non-structured secondary the
call routes through `slog`; flipping the two flags routes it through the
plain path. -/
theorem structuredRoutingPrimaryConfig_witness :
    usesSlog (logWithLevel { Structured := true } [{ Structured := false }]
        LogLevel.INFO "m" false false [] "T" "T") = true ∧
    usesSlog (logWithLevel { Structured := false } [{ Structured := true }]
        LogLevel.INFO "m" false false [] "T" "T") = false := by
  constructor
  · exact (structuredRoutingPrimaryConfig { Structured := true }
      [{ Structured := false }] LogLevel.INFO "m" false false [] "T" "T"
      (Or.inr (Or.inl rfl))).1
  · exact (structuredRoutingPrimaryConfig { Structured := false }
      [{ Structured := true }] LogLevel.INFO "m" false false [] "T" "T"
      (Or.inr (Or.inl rfl))).1

/-- C6 (amended): each legacy global free function first checks the legacy
package `loggers` list — if it is non-empty the call takes the legacy `Log`
path; only when it is empty and a global Logger Instance is registered is the
call forwarded to the equivalent instance method; and only when neither is
present does it write via the minimal built-in fallback writer, in the fixed
`[LEVEL] message` shape, unconditionally (no filtering, no color) and without
consulting any Logger Instance configuration. -/
theorem legacyFacadeDispatch (st : GlobalState) (g : ModernLogger)
    (msg nowU nowL : String) :
    (st.loggers = [] → st.global = none →
      Debugf st msg nowU nowL =
        ⟨.fallback, [Action.fallbackWrite ("[DEBUG] " ++ msg)]⟩ ∧
      Infof st msg nowU nowL =
        ⟨.fallback, [Action.fallbackWrite ("[INFO] " ++ msg)]⟩ ∧
      Warningf st msg nowU nowL =
        ⟨.fallback, [Action.fallbackWrite ("[WARN ] " ++ msg)]⟩ ∧
      Errorf st msg nowU nowL =
        ⟨.fallback, [Action.fallbackWrite ("[ERROR] " ++ msg)]⟩ ∧
      Fatalf st msg nowU nowL =
        ⟨.fallback, [Action.fallbackWrite ("[FATAL] " ++ msg), Action.exit 1]⟩ ∧
      Debug st msg nowU nowL =
        ⟨.fallback, [Action.fallbackWrite ("[DEBUG] " ++ msg)]⟩ ∧
      Info st msg nowU nowL =
        ⟨.fallback, [Action.fallbackWrite ("[INFO] " ++ msg)]⟩ ∧
      Warning st msg nowU nowL =
        ⟨.fallback, [Action.fallbackWrite ("[WARN ] " ++ msg)]⟩ ∧
      Error st msg nowU nowL =
        ⟨.fallback, [Action.fallbackWrite ("[ERROR] " ++ msg)]⟩ ∧
      Fatal st msg nowU nowL =
        ⟨.fallback, [Action.fallbackWrite ("[FATAL] " ++ msg), Action.exit 1]⟩) ∧
    (st.loggers = [] → st.global = some g →
      Infof st msg nowU nowL =
        ⟨.forward, logWithLevel g.primary g.others LogLevel.INFO msg true false
          [] nowU nowL⟩ ∧
      Info st msg nowU nowL =
        ⟨.forward, logWithLevel g.primary g.others LogLevel.INFO msg false false
          [] nowU nowL⟩ ∧
      (Debugf st msg nowU nowL).path = .forward ∧
      (Warningf st msg nowU nowL).path = .forward ∧
      (Errorf st msg nowU nowL).path = .forward ∧
      (Fatalf st msg nowU nowL).path = .forward ∧
      (Debug st msg nowU nowL).path = .forward ∧
      (Warning st msg nowU nowL).path = .forward ∧
      (Error st msg nowU nowL).path = .forward ∧
      (Fatal st msg nowU nowL).path = .forward) ∧
    (st.loggers ≠ [] →
      (Debugf st msg nowU nowL).path = .legacy ∧
      (Infof st msg nowU nowL).path = .legacy ∧
      (Warningf st msg nowU nowL).path = .legacy ∧
      (Errorf st msg nowU nowL).path = .legacy ∧
      (Fatalf st msg nowU nowL).path = .legacy ∧
      (Debug st msg nowU nowL).path = .legacy ∧
      (Info st msg nowU nowL).path = .legacy ∧
      (Warning st msg nowU nowL).path = .legacy ∧
      (Error st msg nowU nowL).path = .legacy ∧
      (Fatal st msg nowU nowL).path = .legacy) := by
  obtain ⟨ls, gl⟩ := st
  refine ⟨?_, ?_, ?_⟩
  · rintro rfl rfl
    exact ⟨rfl, rfl, rfl, rfl, rfl, rfl, rfl, rfl, rfl, rfl⟩
  · rintro rfl rfl
    exact ⟨rfl, rfl, rfl, rfl, rfl, rfl, rfl, rfl, rfl, rfl⟩
  · intro hne
    cases ls with
    | nil => exact absurd rfl hne
    | cons a as =>
      refine ⟨?_, ?_, ?_, ?_, ?_, ?_, ?_, ?_, ?_, ?_⟩ <;>
        simp [Debugf, Infof, Warningf, Errorf, Fatalf, Debug, Info, Warning,
          Error, Fatal]

/-- C6 witness: with neither path present the fallback fires with the fixed
shape; with a non-empty legacy list the legacy path fires. -/
theorem legacyFacadeDispatch_witness :
    Infof { loggers := [], global := none } "hi" "T" "T" =
      ⟨Path.fallback, [Action.fallbackWrite "[INFO] hi"]⟩ ∧
    (Infof { loggers := [{ Levels := [LogLevel.INFO] }], global := none }
      "hi" "T" "T").path = Path.legacy := by
  constructor
  · exact ((legacyFacadeDispatch ⟨[], none⟩ { primary := {} } "hi" "T" "T").1
      rfl rfl).2.1
  · exact ((legacyFacadeDispatch ⟨[{ Levels := [LogLevel.INFO] }], none⟩
      { primary := {} } "hi" "T" "T").2.2 (by simp)).2.1

/-- C6 counterexample: with a global Logger Instance registered AND a
non-empty legacy `loggers` list, `Infof` takes the legacy path rather than
forwarding to the instance, refuting the claim that a registered global
Logger Instance always receives the call. -/
theorem legacyFacadePrefersLoggersList :
    ((⟨[{ Levels := [LogLevel.INFO] }], some { primary := {} }⟩ :
        GlobalState).global).isSome = true ∧
    (Infof ⟨[{ Levels := [LogLevel.INFO] }], some { primary := {} }⟩
      "m" "T" "T").path = Path.legacy ∧
    Path.legacy ≠ Path.forward := ⟨rfl, rfl, by decide⟩

/-- C9: when no global Logger Instance is registered, the package-level
`With`/`WithGroup` return the no-op logger, every method of which performs no
action (empty trace, total function — it cannot panic), and whose own
`With`/`WithGroup` return the same no-op logger itself. -/
theorem noOpLoggerSafety (st : GlobalState) (args : List String)
    (name msg : String) (c : Ctx) (status : Int) (n : noOpLogger) :
    (st.global = none →
      With st args = LoggerVal.noOp {} ∧ WithGroup st name = LoggerVal.noOp {}) ∧
    n.Debug msg args = [] ∧ n.Info msg args = [] ∧ n.Warn msg args = [] ∧
    n.Error msg args = [] ∧ n.Fatal msg args = [] ∧
    n.Debugf msg args = [] ∧ n.Infof msg args = [] ∧ n.Warnf msg args = [] ∧
    n.Errorf msg args = [] ∧ n.Fatalf msg args = [] ∧
    n.DebugContext c msg args = [] ∧ n.InfoContext c msg args = [] ∧
    n.WarnContext c msg args = [] ∧ n.ErrorContext c msg args = [] ∧
    n.FatalContext c msg args = [] ∧
    n.DebugfContext c msg args = [] ∧ n.InfofContext c msg args = [] ∧
    n.WarnfContext c msg args = [] ∧ n.ErrorfContext c msg args = [] ∧
    n.FatalfContext c msg args = [] ∧
    n.API status msg args = [] ∧ n.APIf status msg args = [] ∧
    n.APIContext c status msg args = [] ∧ n.APIfContext c status msg args = [] ∧
    n.With args = n ∧ n.WithGroup name = n := by
  obtain ⟨ls, gl⟩ := st
  refine ⟨?_, rfl, rfl, rfl, rfl, rfl, rfl, rfl, rfl, rfl, rfl, rfl, rfl, rfl,
    rfl, rfl, rfl, rfl, rfl, rfl, rfl, rfl, rfl, rfl, rfl, rfl, rfl⟩
  rintro rfl
  exact ⟨rfl, rfl⟩

/-- C9 witness: the no-op logger at concrete inputs. -/
theorem noOpLoggerSafety_witness :
    With { loggers := [], global := none } ["k", "v"] =
      LoggerVal.noOp {} ∧
    noOpLogger.Info {} "m" ["k", "v"] = [] ∧
    noOpLogger.With {} ["k", "v"] = ({} : noOpLogger) := by
  have h := noOpLoggerSafety ⟨[], none⟩ ["k", "v"] "g" "m" () 200 {}
  exact ⟨(h.1 rfl).1, h.2.2.1, rfl⟩

/-- C10: an invalid token in the normal `levels` string makes `SetupLogger`
reset the package `loggers` list to empty before returning the error,
discarding previously registered destinations; an invalid `apiLevels` token
(with valid `levels`) returns the error with the whole state unchanged —
error atomicity holds for the API branch but not for the normal branch. -/
theorem setupLoggerErrorAtomicity (openOk : String → Bool) (st : SetupState)
    (config : JsonConfig) (e : String) :
    (parseTokens "invalid file log level: " (SplitByMultiple config.Levels) =
        Except.error e →
      SetupLogger openOk st config = (Except.error e, { st with loggers := [] })) ∧
    (∀ ls0,
      parseTokens "invalid file log level: " (SplitByMultiple config.Levels) =
        Except.ok ls0 →
      parseTokens "invalid api log level: " (SplitByMultiple config.ApiLevels) =
        Except.error e →
      SetupLogger openOk st config = (Except.error e, st)) := by
  constructor
  · intro h
    rw [SetupLogger, h]
  · intro ls0 h1 h2
    rw [SetupLogger, h1, h2]

/-- C10 witness: a bad `levels` token wipes a previously non-empty `loggers`
list; a bad `apiLevels` token leaves it intact. -/
theorem setupLoggerErrorAtomicity_witness :
    SetupLogger (fun _ => true)
        { loggers := [{ Levels := [LogLevel.INFO] }], stdOutLoggerExists := true }
        { Levels := "NOPE" } =
      (Except.error "invalid file log level: NOPE",
        { loggers := [], stdOutLoggerExists := true }) ∧
    SetupLogger (fun _ => true)
        { loggers := [{ Levels := [LogLevel.INFO] }], stdOutLoggerExists := true }
        { Levels := "info", ApiLevels := "NOPE" } =
      (Except.error "invalid api log level: NOPE",
        { loggers := [{ Levels := [LogLevel.INFO] }], stdOutLoggerExists := true }) := by
  constructor
  · exact (setupLoggerErrorAtomicity (fun _ => true)
      { loggers := [{ Levels := [LogLevel.INFO] }], stdOutLoggerExists := true }
      { Levels := "NOPE" } "invalid file log level: NOPE").1 rfl
  · exact (setupLoggerErrorAtomicity (fun _ => true)
      { loggers := [{ Levels := [LogLevel.INFO] }], stdOutLoggerExists := true }
      { Levels := "info", ApiLevels := "NOPE" }
      "invalid api log level: NOPE").2 [LogLevel.INFO] rfl rfl

/-- C5: whenever a configuration's severity list parses to the empty set, the
enabled set defaults to exactly `{INFO, ERROR, WARNING}` with DEBUG excluded,
and the default is applied independently and identically to the normal-log
set and to the API-log set, both in `convertJsonConfigToLoggerConfig` and in
`SetupLogger`. -/
theorem emptySeverityListDefaults (jc : JsonConfig) (lc : LoggerConfig)
    (openOk : String → Bool) (st : SetupState) :
    (convertJsonConfigToLoggerConfig jc = Except.ok lc →
      (SplitByMultiple jc.Levels = [] →
        lc.Levels = [LogLevel.INFO, LogLevel.ERROR, LogLevel.WARNING] ∧
        lc.Levels.contains LogLevel.DEBUG = false) ∧
      (SplitByMultiple jc.ApiLevels = [] →
        lc.ApiLevels = [LogLevel.INFO, LogLevel.ERROR, LogLevel.WARNING] ∧
        lc.ApiLevels.contains LogLevel.DEBUG = false)) ∧
    (SplitByMultiple jc.Levels = [] → SplitByMultiple jc.ApiLevels = [] →
      upperString jc.Output = "STDOUT" → st.stdOutLoggerExists = false →
      SetupLogger openOk st jc =
        (Except.ok (),
          { loggers := st.loggers ++
              [{ Levels := [LogLevel.INFO, LogLevel.ERROR, LogLevel.WARNING],
                 ApiLevels := [LogLevel.INFO, LogLevel.ERROR, LogLevel.WARNING],
                 Stdout := true, Colors := !jc.NoColors, Utc := jc.Utc }],
            stdOutLoggerExists := true })) := by
  constructor
  · intro hok
    constructor
    · intro hL
      rw [convertJsonConfigToLoggerConfig, hL] at hok
      simp only [parseTokens] at hok
      cases hA : parseTokens "invalid api log level: " (SplitByMultiple jc.ApiLevels) with
      | error e => rw [hA] at hok; exact absurd hok (by simp)
      | ok as0 =>
        rw [hA] at hok
        injection hok with hok
        subst hok
        exact ⟨rfl, rfl⟩
    · intro hA
      rw [convertJsonConfigToLoggerConfig, hA] at hok
      cases hL : parseTokens "invalid log level: " (SplitByMultiple jc.Levels) with
      | error e => rw [hL] at hok; exact absurd hok (by simp)
      | ok ls0 =>
        rw [hL] at hok
        simp only [parseTokens] at hok
        injection hok with hok
        subst hok
        exact ⟨rfl, rfl⟩
  · intro hL hA hout hstd
    rw [SetupLogger, hL, hA]
    simp only [parseTokens]
    simp [withDefault, AddLogger, hout, hstd]

/-- C5 witness: an empty `levels` string and a delimiter-only `apiLevels`
string both parse to the empty set and default to `{INFO, ERROR, WARNING}`,
independently, in the translator and in `SetupLogger`. -/
theorem emptySeverityListDefaults_witness :
    (∃ lc, convertJsonConfigToLoggerConfig { Levels := "", ApiLevels := "|, " } =
        Except.ok lc ∧
      lc.Levels = [LogLevel.INFO, LogLevel.ERROR, LogLevel.WARNING] ∧
      lc.Levels.contains LogLevel.DEBUG = false ∧
      lc.ApiLevels = [LogLevel.INFO, LogLevel.ERROR, LogLevel.WARNING]) ∧
    SetupLogger (fun _ => true) {}
        { Levels := "", ApiLevels := "|, ", Output := "stdout" } =
      (Except.ok (),
        { loggers :=
            [{ Levels := [LogLevel.INFO, LogLevel.ERROR, LogLevel.WARNING],
               ApiLevels := [LogLevel.INFO, LogLevel.ERROR, LogLevel.WARNING],
               Stdout := true, Colors := true }],
          stdOutLoggerExists := true }) := by
  constructor
  · refine ⟨_, rfl, ?_⟩
    have h := (emptySeverityListDefaults { Levels := "", ApiLevels := "|, " } _
      (fun _ => true) {}).1 rfl
    exact ⟨(h.1 rfl).1, (h.1 rfl).2, (h.2 rfl).1⟩
  · exact (emptySeverityListDefaults
      { Levels := "", ApiLevels := "|, ", Output := "stdout" }
      { Levels := [LogLevel.INFO] } (fun _ => true) {}).2 rfl rfl rfl rfl

theorem apiStatusStrings_fst_ne_fatal (c : Int) :
    ((apiStatusStrings c).1 == "FATAL") = false := by
  unfold apiStatusStrings
  split_ifs <;> decide

theorem apiStatusStrings_snd_ne_empty (c : Int) : (apiStatusStrings c).2 ≠ "" := by
  unfold apiStatusStrings
  split_ifs <;> decide

theorem apiLevel_ne_fatal (c : Int) :
    ((getAPILevelAndColor c).1 == LogLevel.FATAL) = false := by
  unfold getAPILevelAndColor
  split_ifs <;> decide

theorem write_not_mem_slogStructuredLog (i : Nat) (pre body : String)
    (level : LogLevel) (msg : String) (args : List String) :
    Action.write i pre body ∉ slogStructuredLog level msg args := by
  cases level <;> simp [slogStructuredLog]

/-- The prefix produced by `writeToConfig` for an unformatted call on a
non-debug destination: bare timestamp (plus the color escape), no level tag. -/
theorem writeToConfig_fst_unformatted (cfg : LoggerConfig)
    (levelStr msg color nowU nowL : String) (hdbg : cfg.DebugEnabled = false) :
    (writeToConfig cfg levelStr msg false color nowU nowL).1 =
      (if cfg.Colors ∧ color ≠ "" then (if cfg.Utc then nowU else nowL) ++ color
        else (if cfg.Utc then nowU else nowL)) ++ " " := by
  rw [writeToConfig]
  simp only [hdbg, Bool.or_false]
  by_cases hc : color = ""
  · simp [hc]
  · cases hcol : cfg.Colors <;> simp [hc, hcol]

/-- C8 (amended): every API call that reaches a destination through the
unformatted API entry points — the free `Api`/`Apif` (which pass
`prefix = false`) and the instance `API` (which passes `formatted = false`) —
renders with the bare-timestamp prefix and no `[LEVEL]` tag, provided the
destination is not debug-enabled; a debug-enabled destination inserts the
level tag (and the instance `APIf` of `modern.go` passes `formatted = true`,
which also inserts it). -/
theorem apiBareTimestampPrefix (st : GlobalState) (status : Int)
    (msg nowU nowL : String) (i : Nat) (pre body : String) (cfg : LoggerConfig)
    (hglob : st.global = none) (hget : st.loggers.get? i = some cfg)
    (hdbg : cfg.DebugEnabled = false) :
    (Action.write i pre body ∈ (Api st status msg nowU nowL).actions →
      pre = (if cfg.Colors ∧ (apiStatusStrings status).2 ≠ "" then
          (if cfg.Utc then nowU else nowL) ++ (apiStatusStrings status).2
        else (if cfg.Utc then nowU else nowL)) ++ " ") ∧
    (Action.write i pre body ∈ (Apif st status msg nowU nowL).actions →
      pre = (if cfg.Colors ∧ (apiStatusStrings status).2 ≠ "" then
          (if cfg.Utc then nowU else nowL) ++ (apiStatusStrings status).2
        else (if cfg.Utc then nowU else nowL)) ++ " ") ∧
    (∀ (primary : LoggerConfig) (others : List LoggerConfig) (args : List String),
      (primary :: others).get? i = some cfg →
      Action.write i pre body ∈ modernAPI primary others status msg args nowU nowL →
      pre = (if cfg.Colors ∧ getColorForLevel (getAPILevelAndColor status).1 ≠ ""
          then (if cfg.Utc then nowU else nowL) ++
            getColorForLevel (getAPILevelAndColor status).1
        else (if cfg.Utc then nowU else nowL)) ++ " ") := by
  obtain ⟨ls, gl⟩ := st
  simp only at hget
  subst hglob
  have hmain : ∀ levelStr color : String, (levelStr == "FATAL") = false →
      color ≠ "" →
      Action.write i pre body ∈ Log ls levelStr msg false true color nowU nowL →
      pre = (if cfg.Colors ∧ color ≠ "" then
          (if cfg.Utc then nowU else nowL) ++ color
        else (if cfg.Utc then nowU else nowL)) ++ " " := by
    intro levelStr color hlf _hc hmem
    rw [Log] at hmem
    simp only [hlf, Bool.false_eq_true, if_false, List.append_nil] at hmem
    rw [write_mem_loopActions] at hmem
    obtain ⟨k, c, hg, hik, hd⟩ := hmem
    have hk : k = i := by omega
    subst hk
    rw [hget] at hg
    injection hg with hg
    subst hg
    rw [destWrite_api_eq] at hd
    by_cases hfil : cfg.DisabledAPI || !(cfg.ApiLevels.contains
        ((stringToLevel levelStr).getD LogLevel.DISABLED))
    · rw [if_pos hfil] at hd
      exact absurd hd (by simp)
    · rw [if_neg hfil] at hd
      injection hd with hd
      have hp : pre = (writeToConfig cfg levelStr msg false color nowU nowL).1 := by
        rw [hd]
      rw [hp, writeToConfig_fst_unformatted cfg levelStr msg color nowU nowL hdbg]
  refine ⟨?_, ?_, ?_⟩
  · exact hmain (apiStatusStrings status).1 (apiStatusStrings status).2
      (apiStatusStrings_fst_ne_fatal status) (apiStatusStrings_snd_ne_empty status)
  · exact hmain (apiStatusStrings status).1 (apiStatusStrings status).2
      (apiStatusStrings_fst_ne_fatal status) (apiStatusStrings_snd_ne_empty status)
  · intro primary others args hget2 hmem
    rw [modernAPI] at hmem
    by_cases hps : primary.Structured
    · rw [logWithLevel] at hmem
      simp only [hps, Bool.and_true, if_true, ite_self] at hmem
      exact absurd hmem (write_not_mem_slogStructuredLog _ _ _ _ _ _)
    · have hps' : primary.Structured = false := by
        cases h : primary.Structured
        · rfl
        · exact absurd h hps
      rw [logWithLevel] at hmem
      simp only [hps', Bool.and_false, Bool.false_eq_true, if_false,
        apiLevel_ne_fatal, List.append_nil] at hmem
      rw [write_mem_loopActions] at hmem
      obtain ⟨k, c, hg, hik, hd⟩ := hmem
      have hk : k = i := by omega
      subst hk
      rw [hget2] at hg
      injection hg with hg
      subst hg
      rw [destWrite_api_eq] at hd
      by_cases hfil : cfg.DisabledAPI ||
          !(cfg.ApiLevels.contains (getAPILevelAndColor status).1)
      · rw [if_pos hfil] at hd
        exact absurd hd (by simp)
      · rw [if_neg hfil] at hd
        injection hd with hd
        have hp : pre = (writeToConfig cfg
            (levelToString (getAPILevelAndColor status).1) msg false
            (getColorForLevel (getAPILevelAndColor status).1) nowU nowL).1 := by
          rw [hd]
        rw [hp, writeToConfig_fst_unformatted _ _ _ _ _ _ hdbg]

/-- C8 witness: a 404 `Api` call on a plain (non-debug, colorless)
destination whose API set contains WARNING renders with the bare local
timestamp and no level tag. -/
theorem apiBareTimestampPrefix_witness :
    Action.write 0 "L " "m" ∈
      (Api ⟨[{ ApiLevels := [LogLevel.WARNING] }], none⟩ 404 "m" "T" "L").actions ∧
    "L " = (if ({ ApiLevels := [LogLevel.WARNING] } : LoggerConfig).Colors ∧
          (apiStatusStrings 404).2 ≠ "" then
        (if ({ ApiLevels := [LogLevel.WARNING] } : LoggerConfig).Utc then "T" else "L")
          ++ (apiStatusStrings 404).2
      else (if ({ ApiLevels := [LogLevel.WARNING] } : LoggerConfig).Utc
        then "T" else "L")) ++ " " := by
  have hmem : Action.write 0 "L " "m" ∈
      (Api ⟨[{ ApiLevels := [LogLevel.WARNING] }], none⟩ 404 "m" "T" "L").actions := by
    rw [show (Api ⟨[{ ApiLevels := [LogLevel.WARNING] }], none⟩ 404 "m" "T"
      "L").actions = [Action.write 0 "L " "m"] from rfl]
    exact List.mem_singleton.mpr rfl
  exact ⟨hmem, (apiBareTimestampPrefix ⟨[{ ApiLevels := [LogLevel.WARNING] }], none⟩
    404 "m" "T" "L" 0 "L " "m" { ApiLevels := [LogLevel.WARNING] } rfl rfl rfl).1 hmem⟩

/-- C8 counterexample: the claim fails as stated — on a debug-enabled
destination (`levels = "debug"`), the unformatted `Api(404, ...)` call
renders with the `[WARN ]` level tag in its prefix, not the bare timestamp. -/
theorem apiPrefixDebugEnabledTag :
    ∃ lc, convertJsonConfigToLoggerConfig
        { Levels := "debug", ApiLevels := "warning", NoColors := true } =
        Except.ok lc ∧
      (Api ⟨[lc], none⟩ 404 "m" "T" "L").actions =
        [Action.write 0 "L [WARN ] " "m"] ∧
      "L [WARN ] " ≠ "L " := by
  exact ⟨_, rfl, rfl, by decide⟩

theorem upperChar_space (c : Char) (h : upperChar c = ' ') : c = ' ' := by
  rw [upperChar] at h
  by_cases h0 : c = 'a'
  · rw [if_pos h0] at h
    exact absurd h (by decide)
  rw [if_neg h0] at h
  by_cases h1 : c = 'b'
  · rw [if_pos h1] at h
    exact absurd h (by decide)
  rw [if_neg h1] at h
  by_cases h2 : c = 'c'
  · rw [if_pos h2] at h
    exact absurd h (by decide)
  rw [if_neg h2] at h
  by_cases h3 : c = 'd'
  · rw [if_pos h3] at h
    exact absurd h (by decide)
  rw [if_neg h3] at h
  by_cases h4 : c = 'e'
  · rw [if_pos h4] at h
    exact absurd h (by decide)
  rw [if_neg h4] at h
  by_cases h5 : c = 'f'
  · rw [if_pos h5] at h
    exact absurd h (by decide)
  rw [if_neg h5] at h
  by_cases h6 : c = 'g'
  · rw [if_pos h6] at h
    exact absurd h (by decide)
  rw [if_neg h6] at h
  by_cases h7 : c = 'h'
  · rw [if_pos h7] at h
    exact absurd h (by decide)
  rw [if_neg h7] at h
  by_cases h8 : c = 'i'
  · rw [if_pos h8] at h
    exact absurd h (by decide)
  rw [if_neg h8] at h
  by_cases h9 : c = 'j'
  · rw [if_pos h9] at h
    exact absurd h (by decide)
  rw [if_neg h9] at h
  by_cases h10 : c = 'k'
  · rw [if_pos h10] at h
    exact absurd h (by decide)
  rw [if_neg h10] at h
  by_cases h11 : c = 'l'
  · rw [if_pos h11] at h
    exact absurd h (by decide)
  rw [if_neg h11] at h
  by_cases h12 : c = 'm'
  · rw [if_pos h12] at h
    exact absurd h (by decide)
  rw [if_neg h12] at h
  by_cases h13 : c = 'n'
  · rw [if_pos h13] at h
    exact absurd h (by decide)
  rw [if_neg h13] at h
  by_cases h14 : c = 'o'
  · rw [if_pos h14] at h
    exact absurd h (by decide)
  rw [if_neg h14] at h
  by_cases h15 : c = 'p'
  · rw [if_pos h15] at h
    exact absurd h (by decide)
  rw [if_neg h15] at h
  by_cases h16 : c = 'q'
  · rw [if_pos h16] at h
    exact absurd h (by decide)
  rw [if_neg h16] at h
  by_cases h17 : c = 'r'
  · rw [if_pos h17] at h
    exact absurd h (by decide)
  rw [if_neg h17] at h
  by_cases h18 : c = 's'
  · rw [if_pos h18] at h
    exact absurd h (by decide)
  rw [if_neg h18] at h
  by_cases h19 : c = 't'
  · rw [if_pos h19] at h
    exact absurd h (by decide)
  rw [if_neg h19] at h
  by_cases h20 : c = 'u'
  · rw [if_pos h20] at h
    exact absurd h (by decide)
  rw [if_neg h20] at h
  by_cases h21 : c = 'v'
  · rw [if_pos h21] at h
    exact absurd h (by decide)
  rw [if_neg h21] at h
  by_cases h22 : c = 'w'
  · rw [if_pos h22] at h
    exact absurd h (by decide)
  rw [if_neg h22] at h
  by_cases h23 : c = 'x'
  · rw [if_pos h23] at h
    exact absurd h (by decide)
  rw [if_neg h23] at h
  by_cases h24 : c = 'y'
  · rw [if_pos h24] at h
    exact absurd h (by decide)
  rw [if_neg h24] at h
  by_cases h25 : c = 'z'
  · rw [if_pos h25] at h
    exact absurd h (by decide)
  rw [if_neg h25] at h
  exact h

theorem upperString_no_space (tok : String)
    (hnd : tok.toList.any isDelim = false) (k : String)
    (hk : (' ' : Char) ∈ k.toList) : upperString tok ≠ k := by
  intro he
  rw [upperString] at he
  cases k with
  | mk kd =>
    have hdata : tok.toList.map upperChar = kd := congrArg String.data he
    have hk2 : (' ' : Char) ∈ tok.toList.map upperChar := by
      rw [hdata]; exact hk
    rw [List.mem_map] at hk2
    obtain ⟨c, hcmem, hceq⟩ := hk2
    have hc : c = ' ' := upperChar_space c hceq
    subst hc
    have : tok.toList.any isDelim = true :=
      List.any_eq_true.mpr ⟨' ', hcmem, by decide⟩
    rw [hnd] at this
    exact absurd this (by decide)

theorem fieldsAux_fields_ok (cs : List Char) (acc : List Char)
    (hacc : ∀ ch ∈ acc, isDelim ch = false) :
    ∀ f ∈ fieldsAux cs acc, f ≠ [] ∧ ∀ ch ∈ f, isDelim ch = false := by
  induction cs generalizing acc with
  | nil =>
    intro f hf
    rw [fieldsAux] at hf
    by_cases ha : acc.isEmpty
    · rw [if_pos ha] at hf
      exact absurd hf (List.not_mem_nil f)
    · rw [if_neg ha] at hf
      simp only [List.mem_singleton] at hf
      subst hf
      refine ⟨?_, fun ch hch => hacc ch (List.mem_reverse.mp hch)⟩
      intro h0
      rw [List.reverse_eq_nil_iff] at h0
      subst h0
      exact ha rfl
  | cons c rest ih =>
    intro f hf
    rw [fieldsAux] at hf
    by_cases hd : isDelim c
    · rw [if_pos hd] at hf
      by_cases ha : acc.isEmpty
      · rw [if_pos ha] at hf
        exact ih [] (by simp) f hf
      · rw [if_neg ha] at hf
        rcases List.mem_cons.mp hf with hf | hf
        · subst hf
          refine ⟨?_, fun ch hch => hacc ch (List.mem_reverse.mp hch)⟩
          intro h0
          rw [List.reverse_eq_nil_iff] at h0
          subst h0
          exact ha rfl
        · exact ih [] (by simp) f hf
    · rw [if_neg hd] at hf
      simp only [Bool.not_eq_true] at hd
      refine ih (c :: acc) ?_ f hf
      intro ch hch
      rcases List.mem_cons.mp hch with h | h
      · subst h; exact hd
      · exact hacc ch h

theorem splitByMultiple_tokens_ok (s tok : String)
    (h : tok ∈ SplitByMultiple s) :
    tok ≠ "" ∧ tok.toList.any isDelim = false := by
  rw [SplitByMultiple] at h
  simp only [List.mem_map] at h
  obtain ⟨f, hf, hmk⟩ := h
  have hok := fieldsAux_fields_ok s.toList [] (by simp) f hf
  subst hmk
  constructor
  · intro h0
    have : f = [] := congrArg String.data h0
    exact hok.1 this
  · rcases hb : f.any isDelim with _ | _
    · exact hb
    · obtain ⟨ch, hmem, hch⟩ := List.any_eq_true.mp hb
      rw [hok.2 ch hmem] at hch
      exact absurd hch (by decide)

/-- The set of severity names the token parser actually accepts, written as
the spec's §4.1 contract would (case-insensitive name list), extended by the
two extra names present in the `stringToLevel` table. -/
def acceptedSeverityName (tok : String) : Bool :=
  ["DEBUG", "INFO", "WARNING", "WARN", "ERROR", "DISABLED", "FATAL", "API"].contains
    (upperString tok)

theorem parseSingleToken (em tok : String) (hne : tok ≠ "")
    (hnd : tok.toList.any isDelim = false) :
    (((parseTokens em [tok]).isOk = true) ↔ acceptedSeverityName tok = true) ∧
    (acceptedSeverityName tok = false →
      parseTokens em [tok] = Except.error (em ++ normalizeToken tok)) := by
  have hstep : parseTokens em [tok] =
      match stringToLevel (normalizeToken tok) with
      | none => Except.error (em ++ normalizeToken tok)
      | some lvl => Except.ok [lvl] := by
    cases h : stringToLevel (normalizeToken tok) with
    | none => simp [parseTokens, hne, h]
    | some lvl => simp [parseTokens, hne, h]
  by_cases h1 : upperString tok = "DEBUG"
  · rw [hstep]
    simp [normalizeToken, stringToLevel, acceptedSeverityName, Except.isOk, Except.toBool, h1]
  by_cases h2 : upperString tok = "INFO"
  · rw [hstep]
    simp [normalizeToken, stringToLevel, acceptedSeverityName, Except.isOk, Except.toBool, h2]
  by_cases h3 : upperString tok = "WARNING"
  · rw [hstep]
    simp [normalizeToken, stringToLevel, acceptedSeverityName, Except.isOk, Except.toBool, h3]
  by_cases h4 : upperString tok = "WARN"
  · rw [hstep]
    simp [normalizeToken, stringToLevel, acceptedSeverityName, Except.isOk, Except.toBool, h4]
  by_cases h5 : upperString tok = "ERROR"
  · rw [hstep]
    simp [normalizeToken, stringToLevel, acceptedSeverityName, Except.isOk, Except.toBool, h5]
  by_cases h6 : upperString tok = "DISABLED"
  · rw [hstep]
    simp [normalizeToken, stringToLevel, acceptedSeverityName, Except.isOk, Except.toBool, h6]
  by_cases h7 : upperString tok = "FATAL"
  · rw [hstep]
    simp [normalizeToken, stringToLevel, acceptedSeverityName, Except.isOk, Except.toBool, h7]
  by_cases h8 : upperString tok = "API"
  · rw [hstep]
    simp [normalizeToken, stringToLevel, acceptedSeverityName, Except.isOk, Except.toBool, h8]
  · have hi : upperString tok ≠ "INFO " :=
      upperString_no_space tok hnd "INFO " (by decide)
    have hw : upperString tok ≠ "WARN " :=
      upperString_no_space tok hnd "WARN " (by decide)
    have hnorm : normalizeToken tok = upperString tok := by
      rw [normalizeToken]
      simp [h2, h3, h4]
    have hnone : stringToLevel (upperString tok) = none := by
      rw [stringToLevel]
      simp [h1, h2, h5, h6, h7, h8, hi, hw]
    rw [hstep, hnorm, hnone]
    simp [acceptedSeverityName, Except.isOk, Except.toBool, h1, h2, h3, h4, h5, h6, h7, h8]

theorem newLoggerConvertError (jc : JsonConfig) (e : String)
    (openOk : String → Bool) (st : SetupState)
    (h : convertJsonConfigToLoggerConfig jc = Except.error e) :
    NewLogger openOk st jc = Except.error ("convert config: " ++ e) := by
  rw [NewLogger, h]

/-- C4 (amended): severity token parsing accepts exactly the case-insensitive
names DEBUG, INFO, WARNING, WARN, ERROR, DISABLED, FATAL and API (the
`stringToLevel` table also holds the FATAL and API keys, two more than the
claim's six); every other non-empty delimiter-free token fails with an
`invalid log level` error naming the normalized token, and on a failed
translation `NewLogger` returns the error and creates no instance.  Tokens
produced by `SplitByMultiple` are always non-empty and delimiter-free. -/
theorem severityTokenAcceptance :
    (∀ s tok : String, tok ∈ SplitByMultiple s →
      tok ≠ "" ∧ tok.toList.any isDelim = false) ∧
    (∀ em tok : String, tok ≠ "" → tok.toList.any isDelim = false →
      (((parseTokens em [tok]).isOk = true) ↔ acceptedSeverityName tok = true) ∧
      (acceptedSeverityName tok = false →
        parseTokens em [tok] = Except.error (em ++ normalizeToken tok))) ∧
    (∀ (jc : JsonConfig) (e : String) (openOk : String → Bool) (st : SetupState),
      convertJsonConfigToLoggerConfig jc = Except.error e →
      NewLogger openOk st jc = Except.error ("convert config: " ++ e)) :=
  ⟨splitByMultiple_tokens_ok, parseSingleToken,
    fun jc e openOk st h => newLoggerConvertError jc e openOk st h⟩

/-- C4 witness: the unknown token `verbose` is rejected with the
`invalid log level` error and `NewLogger` fails on it. -/
theorem severityTokenAcceptance_witness :
    parseTokens "invalid log level: " ["verbose"] =
      Except.error "invalid log level: VERBOSE" ∧
    NewLogger (fun _ => true) {} { Levels := "verbose" } =
      Except.error "convert config: invalid log level: VERBOSE" ∧
    (parseTokens "invalid log level: " ["debug"]).isOk = true := by
  refine ⟨?_, ?_, ?_⟩
  · exact (severityTokenAcceptance.2.1 "invalid log level: " "verbose"
      (by decide) (by decide)).2 (by decide)
  · exact severityTokenAcceptance.2.2 { Levels := "verbose" }
      "invalid log level: VERBOSE" (fun _ => true) {} rfl
  · exact (severityTokenAcceptance.2.1 "invalid log level: " "debug"
      (by decide) (by decide)).1.mpr (by decide)

/-- C4 counterexample: the claim's six-name list is too small — the tokens
`fatal` and `api` also parse successfully, so configuration translation does
NOT fail on them. -/
theorem severityTokenFatalAccepted :
    (convertJsonConfigToLoggerConfig { Levels := "fatal" }).isOk = true ∧
    (convertJsonConfigToLoggerConfig { Levels := "api" }).isOk = true ∧
    (parseTokens "invalid log level: " ["fatal"]).isOk = true := by
  exact ⟨rfl, rfl, rfl⟩

end GoLogger
